import Mathlib

/-!
Shallow embedding of the multimodal-rag repository (src/main.py, src/eval.py,
src/eval_hybrid.py, src/eval_smart.py).

External services (embedding model, vision captioner, ChromaDB vector store)
are modelled as parameters, following the store boundary described in the
documentation: a collection query takes the ranked candidate list for the
query embedding, an optional metadata predicate, and a result count, and
returns the first n records that satisfy the predicate; a store call may
also fail, modelled with Except.
-/

set_option maxHeartbeats 1000000

namespace MMRag

/-- JSON-like values used for metadata, filters and where clauses. -/
inductive JVal where
  | str : String → JVal
  | int : Int → JVal
  | obj : List (String × JVal) → JVal
  | arr : List JVal → JVal
deriving Repr

/-- Scalar equality on JSON values, as used by the store for $eq / $ne
comparisons of metadata fields (metadata values are scalars). -/
def JVal.eqScalar : JVal → JVal → Bool
  | .str a, .str b => a == b
  | .int a, .int b => a == b
  | _, _ => false

/-- Numeric less-than on JSON values (prices are integers in the catalog). -/
def JVal.ltScalar : JVal → JVal → Bool
  | .int a, .int b => a < b
  | _, _ => false

/-- Evaluation of a single comparison operator of the store predicate
language on a metadata value. -/
def evalOp (op : String) (target actual : JVal) : Bool :=
  if op == "$eq" then JVal.eqScalar actual target
  else if op == "$ne" then !(JVal.eqScalar actual target)
  else if op == "$lt" then JVal.ltScalar actual target
  else if op == "$lte" then JVal.ltScalar actual target || JVal.eqScalar actual target
  else if op == "$gt" then JVal.ltScalar target actual
  else if op == "$gte" then JVal.ltScalar target actual || JVal.eqScalar actual target
  else false

/-- A single condition of a where clause: a one-field object mapping a
metadata field to a one-operator object. -/
def matchCond (md : List (String × JVal)) : JVal → Bool
  | .obj [(field, .obj [(op, target)])] =>
      match List.lookup field md with
      | some actual => evalOp op target actual
      | none => false
  | _ => false

/-- Store-side where-clause matching: either a conjunction of conditions
under the $and key, or a single condition (the only shapes this system
sends to the store, per the data-model description of filters). -/
def matchWhere (w : JVal) (md : List (String × JVal)) : Bool :=
  match w with
  | .obj [("$and", .arr cs)] => cs.all (matchCond md)
  | c => matchCond md c

/-- One indexed record as the store returns it for a query: document text,
metadata, and the distance to the query embedding. -/
structure StoreRecord where
  document : String
  metadata : List (String × JVal)
  distance : Rat
deriving Repr

/-- The store boundary from the documentation: given the ranked candidate
list of a collection for the query embedding (or a store failure), return
the first n records satisfying the optional where clause. -/
def chromaQuery (ranked : Except String (List StoreRecord)) (n : Nat)
    (w : Option JVal) : Except String (List StoreRecord) :=
  match ranked with
  | .error e => .error e
  | .ok rs =>
      .ok ((match w with
            | none => rs
            | some c => rs.filter (fun r => matchWhere c r.metadata)).take n)

/-- One entry of the text_results list of a search. -/
structure TextEntry where
  content : String
  metadata : List (String × JVal)
  distance : Rat
deriving Repr

/-- One entry of the image_results list of a search. -/
structure ImageEntry where
  visual_description : String
  metadata : List (String × JVal)
  distance : Rat
deriving Repr

/-- The dictionary returned by MultiModalRAG.search. -/
structure SearchResult where
  query : String
  text_results : List TextEntry
  image_results : List ImageEntry
deriving Repr

/-- The dictionary returned by MultiModalRAG.hybrid_search (it additionally
records the filters used). -/
structure HybridResult where
  query : String
  filters : Option (List (String × JVal))
  text_results : List TextEntry
  image_results : List ImageEntry
deriving Repr

def toTextEntry (r : StoreRecord) : TextEntry :=
  { content := r.document, metadata := r.metadata, distance := r.distance }

def toImageEntry (r : StoreRecord) : ImageEntry :=
  { visual_description := r.document, metadata := r.metadata, distance := r.distance }

/-- MultiModalRAG.search (src/main.py lines 140-178): embed the query, run an
unfiltered top-n query against each selected collection, and collect every
returned hit. Store failures are not caught here and propagate. -/
def search (textRanked imageRanked : Except String (List StoreRecord))
    (query : String) (n_results : Nat)
    (search_images search_text : Bool) : Except String SearchResult :=
  match (if search_text then chromaQuery textRanked n_results none else .ok []) with
  | .error e => .error e
  | .ok tr =>
      match (if search_images then chromaQuery imageRanked n_results none else .ok []) with
      | .error e => .error e
      | .ok ir =>
          .ok { query := query
                text_results := tr.map toTextEntry
                image_results := ir.map toImageEntry }

/-- The condition built for one filter field (src/main.py lines 204-210):
a mapping value (range predicate) is passed through, any other value
becomes an exact-match $eq predicate. -/
def fieldCondition : String × JVal → JVal
  | (key, .obj o) => .obj [(key, .obj o)]
  | (key, v) => .obj [(key, .obj [("$eq", v)])]

/-- The where clause sent to the store (src/main.py lines 200-216): nothing
for a missing or empty filter; the single condition for a one-field filter;
otherwise the $and of all conditions. -/
def buildWhereClause : Option (List (String × JVal)) → Option JVal
  | none => none
  | some fs =>
      if fs.isEmpty then none
      else
        match fs.map fieldCondition with
        | [c] => some c
        | conds => some (.obj [("$and", .arr conds)])

/-- MultiModalRAG.hybrid_search (src/main.py lines 180-254): build the where
clause, query each selected collection for n_results * 2 candidates with the
filter applied by the store, keep the first min(n_results, returned) hits,
and catch any store failure per modality, leaving that list empty. -/
def hybrid_search (textRanked imageRanked : Except String (List StoreRecord))
    (query : String) (n_results : Nat)
    (filters : Option (List (String × JVal)))
    (search_images search_text : Bool) : HybridResult :=
  let where_clause := buildWhereClause filters
  let text_results :=
    if search_text then
      match chromaQuery textRanked (n_results * 2) where_clause with
      | .ok rs => (rs.take n_results).map toTextEntry
      | .error _ => []
    else []
  let image_results :=
    if search_images then
      match chromaQuery imageRanked (n_results * 2) where_clause with
      | .ok rs => (rs.take n_results).map toImageEntry
      | .error _ => []
    else []
  { query := query, filters := filters
    text_results := text_results, image_results := image_results }

/-- The error lines hybrid_search prints (src/main.py lines 234 and 252):
one line per modality whose store query failed. -/
def hybrid_search_logs (textRanked imageRanked : Except String (List StoreRecord))
    (query : String) (n_results : Nat)
    (filters : Option (List (String × JVal)))
    (search_images search_text : Bool) : List String :=
  let where_clause := buildWhereClause filters
  let _ := query
  (if search_text then
      match chromaQuery textRanked (n_results * 2) where_clause with
      | .ok _ => []
      | .error e => [s!"Text search error: {e}"]
    else []) ++
  (if search_images then
      match chromaQuery imageRanked (n_results * 2) where_clause with
      | .ok _ => []
      | .error e => [s!"Image search error: {e}"]
    else [])

/-- The record returned by calculate_metrics. Python float division is exact
here and is modelled with rationals. -/
structure Metrics where
  precision : Rat
  «recall» : Rat
  f1 : Rat
  tp : Nat
  fp : Nat
  «fn» : Nat
deriving Repr, DecidableEq

/-- calculate_metrics (src/eval.py lines 83-113; the identical function also
appears in src/eval_hybrid.py and src/eval_smart.py). -/
def calculate_metrics (predicted expected : List String) : Metrics :=
  let predicted_set := predicted.toFinset
  let expected_set := expected.toFinset
  let tp := (predicted_set ∩ expected_set).card
  let fp := (predicted_set \ expected_set).card
  let fneg := (expected_set \ predicted_set).card
  let precision : Rat := if tp + fp > 0 then (tp : Rat) / ((tp : Rat) + (fp : Rat)) else 0
  let «recall» : Rat := if tp + fneg > 0 then (tp : Rat) / ((tp : Rat) + (fneg : Rat)) else 0
  let f1 : Rat :=
    if precision + «recall» > 0 then 2 * (precision * «recall») / (precision + «recall») else 0
  { precision := precision, «recall» := «recall», f1 := f1, tp := tp, fp := fp, «fn» := fneg }

/-- One catalog item as stored in data/descriptions.json under its filename
key (src/generate_data.py). -/
structure Item where
  name : String
  description : String
  color : String
  category : String
  price : Int
deriving Repr

/-- One record added to a collection: identifier, document text, embedding,
metadata. -/
structure AddedRecord where
  id : String
  document : String
  embedding : List Rat
  metadata : List (String × JVal)
deriving Repr

/-- The concatenated text document indexed for an item
(src/main.py line 94). -/
def text_content (info : Item) : String :=
  info.name ++ " - " ++ info.description ++ " - " ++ info.color ++ " - " ++ info.category

/-- MultiModalRAG.index_data (src/main.py lines 72-138): for the i-th
catalog entry (filename, info), build one text record and one image record;
the text document is the concatenation name - description - color -
category with filtering metadata, the image document is the caption the
vision service produces for images/filename with filename and caption
metadata. The embedder and the vision captioner are external services
passed as functions. Returns the two record lists added to the text and
image collections. -/
def index_data (embed : String → List Rat) (caption : String → String)
    (descriptions : List (String × Item)) : List AddedRecord × List AddedRecord :=
  let rows := descriptions.enum
  (rows.map (fun row =>
      let i := row.1
      let filename := row.2.1
      let info := row.2.2
      { id := s!"text_{i}"
        document := text_content info
        embedding := embed (text_content info)
        metadata := [("filename", .str filename), ("name", .str info.name),
                     ("color", .str info.color), ("category", .str info.category),
                     ("price", .int info.price)] }),
   rows.map (fun row =>
      let i := row.1
      let filename := row.2.1
      let image_path := "images/" ++ filename
      let image_description := caption image_path
      { id := s!"image_{i}"
        document := image_description
        embedding := embed image_description
        metadata := [("filename", .str filename), ("image_path", .str image_path),
                     ("visual_description", .str image_description)] }))

/-- Lowercase one ASCII letter. -/
def lowerChar (c : Char) : Char :=
  if 65 ≤ c.toNat ∧ c.toNat ≤ 90 then Char.ofNat (c.toNat + 32) else c

/-- Does the text start with the pattern. -/
def charsLeadWith : List Char → List Char → Bool
  | [], _ => true
  | _ :: _, [] => false
  | a :: as, b :: bs => a == b && charsLeadWith as bs

/-- The text remaining after the first occurrence of the pattern, if the
pattern occurs at all. -/
def afterFirst (pat : List Char) : List Char → Option (List Char)
  | [] => if charsLeadWith pat [] then some [] else none
  | c :: cs =>
      if charsLeadWith pat (c :: cs) then some (List.drop pat.length (c :: cs))
      else afterFirst pat cs

/-- Does the needle occur as a substring of the haystack. -/
def occursIn (needle : String) (hay : List Char) : Bool :=
  (afterFirst needle.data hay).isSome

/-- Numeric value of a leading run of decimal digits, if there is one. -/
def leadingNat (cs : List Char) : Option Nat :=
  let digits := cs.takeWhile Char.isDigit
  if digits.isEmpty then none
  else some (digits.foldl (fun acc c => 10 * acc + (c.toNat - 48)) 0)

/-- Modelled from the spec: the color words smart search recognizes; the
recognizer itself is absent from the sources (only its caller
src/eval_smart.py is present), so the vocabulary is the catalog colors. -/
def colorWords : List String :=
  ["red", "white", "brown", "black", "blue", "silver", "gray", "wood"]

/-- Modelled from the spec: the category words smart search recognizes,
taken from the catalog categories. -/
def categoryWords : List String :=
  ["footwear", "furniture", "electronics", "accessories"]

/-- Modelled from the spec: recognize a price threshold written as
"under $X" in the lowercased query and derive a less-than bound. -/
def priceUnder (lq : List Char) : Option Int :=
  match afterFirst "under $".data lq with
  | some rest =>
      match leadingNat rest with
      | some m => some (Int.ofNat m)
      | none => none
  | none => none

/-- Modelled from the spec: smart search derives a metadata filter from the
query text by recognizing color words, category words, and price thresholds
such as "under $X"; this function is the derivation step. It returns none
when no recognizable filter term is found. The implementation is absent
from the sources (src/eval_smart.py calls rag.smart_search but src/main.py
does not define it). -/
def extract_filters (query : String) : Option (List (String × JVal)) :=
  let lq := query.data.map lowerChar
  let color := colorWords.find? (fun c => occursIn c lq)
  let category := categoryWords.find? (fun c => occursIn c lq)
  let price := priceUnder lq
  let fs :=
    (match color with | some c => [("color", JVal.str c)] | none => []) ++
    (match category with | some c => [("category", JVal.str c)] | none => []) ++
    (match price with | some p => [("price", JVal.obj [("$lt", JVal.int p)])] | none => [])
  if fs.isEmpty then none else some fs

/-- Modelled from the spec: smart_search(query, n) attempts to derive a
filter automatically from the query text and then delegates to
hybrid_search; if no recognizable filter terms are found it falls back to
unfiltered search. The implementation is absent from the sources (only its
caller src/eval_smart.py is present). -/
def smart_search (textRanked imageRanked : Except String (List StoreRecord))
    (query : String) (n_results : Nat) : Except String HybridResult :=
  match extract_filters query with
  | some fs =>
      .ok (hybrid_search textRanked imageRanked query n_results (some fs) true true)
  | none =>
      match search textRanked imageRanked query n_results true true with
      | .error e => .error e
      | .ok r =>
          .ok { query := r.query, filters := none
                text_results := r.text_results, image_results := r.image_results }

/-! Helper lemmas about calculate_metrics, shared by the evaluator claims. -/

theorem metrics_tp_eq (P E : List String) :
    (calculate_metrics P E).tp = (P.toFinset ∩ E.toFinset).card := rfl

theorem metrics_fp_eq (P E : List String) :
    (calculate_metrics P E).fp = (P.toFinset \ E.toFinset).card := rfl

theorem metrics_fn_eq (P E : List String) :
    (calculate_metrics P E).«fn» = (E.toFinset \ P.toFinset).card := rfl

theorem metrics_tp_add_fp (P E : List String) :
    (calculate_metrics P E).tp + (calculate_metrics P E).fp = P.toFinset.card :=
  Finset.card_inter_add_card_sdiff _ _

theorem metrics_tp_add_fn (P E : List String) :
    (calculate_metrics P E).tp + (calculate_metrics P E).«fn» = E.toFinset.card := by
  rw [metrics_tp_eq, metrics_fn_eq, Finset.inter_comm]
  exact Finset.card_inter_add_card_sdiff _ _

theorem metrics_precision_spec (P E : List String) :
    (calculate_metrics P E).precision =
      if P.toFinset = ∅ then 0
      else ((P.toFinset ∩ E.toFinset).card : Rat) / (P.toFinset.card : Rat) := by
  have h := metrics_tp_add_fp P E
  rw [metrics_tp_eq, metrics_fp_eq] at h
  show (if (P.toFinset ∩ E.toFinset).card + (P.toFinset \ E.toFinset).card > 0
        then ((P.toFinset ∩ E.toFinset).card : Rat) /
          (((P.toFinset ∩ E.toFinset).card : Rat) + ((P.toFinset \ E.toFinset).card : Rat))
        else 0) = _
  by_cases hc : P.toFinset = ∅
  · have hz : (P.toFinset ∩ E.toFinset).card + (P.toFinset \ E.toFinset).card = 0 := by
      rw [h, hc, Finset.card_empty]
    rw [if_pos hc, if_neg (by omega)]
  · have hpos : 0 < P.toFinset.card :=
      Finset.card_pos.mpr (Finset.nonempty_iff_ne_empty.mpr hc)
    rw [if_neg hc, if_pos (by omega), ← h]
    push_cast
    ring

theorem metrics_recall_spec (P E : List String) :
    (calculate_metrics P E).«recall» =
      if E.toFinset = ∅ then 0
      else ((P.toFinset ∩ E.toFinset).card : Rat) / (E.toFinset.card : Rat) := by
  have h := metrics_tp_add_fn P E
  rw [metrics_tp_eq, metrics_fn_eq] at h
  show (if (P.toFinset ∩ E.toFinset).card + (E.toFinset \ P.toFinset).card > 0
        then ((P.toFinset ∩ E.toFinset).card : Rat) /
          (((P.toFinset ∩ E.toFinset).card : Rat) + ((E.toFinset \ P.toFinset).card : Rat))
        else 0) = _
  by_cases hc : E.toFinset = ∅
  · have hz : (P.toFinset ∩ E.toFinset).card + (E.toFinset \ P.toFinset).card = 0 := by
      rw [h, hc, Finset.card_empty]
    rw [if_pos hc, if_neg (by omega)]
  · have hpos : 0 < E.toFinset.card :=
      Finset.card_pos.mpr (Finset.nonempty_iff_ne_empty.mpr hc)
    rw [if_neg hc, if_pos (by omega), ← h]
    push_cast
    ring

theorem metrics_f1_eq (P E : List String) :
    (calculate_metrics P E).f1 =
      if (calculate_metrics P E).precision + (calculate_metrics P E).«recall» > 0
      then 2 * ((calculate_metrics P E).precision * (calculate_metrics P E).«recall») /
        ((calculate_metrics P E).precision + (calculate_metrics P E).«recall»)
      else 0 := rfl

theorem metrics_precision_nonneg (P E : List String) :
    0 ≤ (calculate_metrics P E).precision := by
  rw [metrics_precision_spec]
  split_ifs
  · exact le_refl 0
  · positivity

theorem metrics_recall_nonneg (P E : List String) :
    0 ≤ (calculate_metrics P E).«recall» := by
  rw [metrics_recall_spec]
  split_ifs
  · exact le_refl 0
  · positivity

theorem metrics_precision_le_one (P E : List String) :
    (calculate_metrics P E).precision ≤ 1 := by
  rw [metrics_precision_spec]
  split_ifs with h
  · exact zero_le_one
  · have hsub : (P.toFinset ∩ E.toFinset).card ≤ P.toFinset.card :=
      Finset.card_le_card (Finset.inter_subset_left)
    have hpos : (0 : Rat) < (P.toFinset.card : Rat) := by
      have : P.toFinset.card ≠ 0 := fun hc => h (Finset.card_eq_zero.mp hc)
      exact_mod_cast Nat.pos_of_ne_zero this
    rw [div_le_one hpos]
    exact_mod_cast hsub

theorem metrics_recall_le_one (P E : List String) :
    (calculate_metrics P E).«recall» ≤ 1 := by
  rw [metrics_recall_spec]
  split_ifs with h
  · exact zero_le_one
  · have hsub : (P.toFinset ∩ E.toFinset).card ≤ E.toFinset.card :=
      Finset.card_le_card (Finset.inter_subset_right)
    have hpos : (0 : Rat) < (E.toFinset.card : Rat) := by
      have : E.toFinset.card ≠ 0 := fun hc => h (Finset.card_eq_zero.mp hc)
      exact_mod_cast Nat.pos_of_ne_zero this
    rw [div_le_one hpos]
    exact_mod_cast hsub

/-- Claim C3: for every pair of predicted and expected lists, viewed as the
sets they induce, calculate_metrics returns precision |P ∩ E| / |P| and 0
when P is empty, recall |P ∩ E| / |E| and 0 when E is empty, F1 equal to
2 times precision times recall over their sum and 0 when that sum is 0,
together with tp = |P ∩ E|, fp = |P minus E|, fn = |E minus P|. -/
theorem calculate_metrics_correct (P E : List String) :
    (calculate_metrics P E).tp = (P.toFinset ∩ E.toFinset).card ∧
    (calculate_metrics P E).fp = (P.toFinset \ E.toFinset).card ∧
    (calculate_metrics P E).«fn» = (E.toFinset \ P.toFinset).card ∧
    (calculate_metrics P E).precision =
      (if P.toFinset = ∅ then 0
       else ((P.toFinset ∩ E.toFinset).card : Rat) / (P.toFinset.card : Rat)) ∧
    (calculate_metrics P E).«recall» =
      (if E.toFinset = ∅ then 0
       else ((P.toFinset ∩ E.toFinset).card : Rat) / (E.toFinset.card : Rat)) ∧
    (calculate_metrics P E).f1 =
      (if (calculate_metrics P E).precision + (calculate_metrics P E).«recall» = 0 then 0
       else 2 * (calculate_metrics P E).precision * (calculate_metrics P E).«recall» /
         ((calculate_metrics P E).precision + (calculate_metrics P E).«recall»)) := by
  refine ⟨metrics_tp_eq P E, metrics_fp_eq P E, metrics_fn_eq P E,
    metrics_precision_spec P E, metrics_recall_spec P E, ?_⟩
  have hp := metrics_precision_nonneg P E
  have hr := metrics_recall_nonneg P E
  rw [metrics_f1_eq]
  by_cases h : (calculate_metrics P E).precision + (calculate_metrics P E).«recall» = 0
  · rw [if_pos h, if_neg (by rw [h]; exact lt_irrefl 0)]
  · have hpos : 0 < (calculate_metrics P E).precision + (calculate_metrics P E).«recall» :=
      lt_of_le_of_ne (by linarith) (Ne.symm h)
    rw [if_pos hpos, if_neg h]
    ring

/-- Claim C8: calculate_metrics is invariant under permutation and
duplication of its inputs: whenever two predicted lists induce the same set
and two expected lists induce the same set, the returned metrics records
are equal. -/
theorem calculate_metrics_set_invariant (P P2 E E2 : List String)
    (hP : P.toFinset = P2.toFinset) (hE : E.toFinset = E2.toFinset) :
    calculate_metrics P E = calculate_metrics P2 E2 := by
  unfold calculate_metrics
  rw [hP, hE]

theorem calculate_metrics_set_invariant_witness :
    (["a", "b", "b"] : List String).toFinset = (["b", "a"] : List String).toFinset ∧
    (["c"] : List String).toFinset = (["c", "c"] : List String).toFinset ∧
    calculate_metrics ["a", "b", "b"] ["c"] = calculate_metrics ["b", "a"] ["c", "c"] :=
  ⟨by decide, by decide,
    calculate_metrics_set_invariant ["a", "b", "b"] ["b", "a"] ["c"] ["c", "c"]
      (by decide) (by decide)⟩

/-- Claim C10: every numeric field of the record returned by
calculate_metrics is bounded: precision, recall and f1 lie in the closed
interval from 0 to 1, the counts are non-negative, tp + fp is the size of
the predicted set and tp + fn the size of the expected set. -/
theorem calculate_metrics_bounds (P E : List String) :
    0 ≤ (calculate_metrics P E).precision ∧ (calculate_metrics P E).precision ≤ 1 ∧
    0 ≤ (calculate_metrics P E).«recall» ∧ (calculate_metrics P E).«recall» ≤ 1 ∧
    0 ≤ (calculate_metrics P E).f1 ∧ (calculate_metrics P E).f1 ≤ 1 ∧
    0 ≤ ((calculate_metrics P E).tp : Int) ∧ 0 ≤ ((calculate_metrics P E).fp : Int) ∧
    0 ≤ ((calculate_metrics P E).«fn» : Int) ∧
    (calculate_metrics P E).tp + (calculate_metrics P E).fp = P.toFinset.card ∧
    (calculate_metrics P E).tp + (calculate_metrics P E).«fn» = E.toFinset.card := by
  have hp0 := metrics_precision_nonneg P E
  have hp1 := metrics_precision_le_one P E
  have hr0 := metrics_recall_nonneg P E
  have hr1 := metrics_recall_le_one P E
  refine ⟨hp0, hp1, hr0, hr1, ?_, ?_, Int.ofNat_nonneg _, Int.ofNat_nonneg _,
    Int.ofNat_nonneg _, metrics_tp_add_fp P E, metrics_tp_add_fn P E⟩
  · rw [metrics_f1_eq]
    split_ifs with h
    · positivity
    · exact le_refl 0
  · rw [metrics_f1_eq]
    split_ifs with h
    · rw [div_le_one h]
      nlinarith
    · exact zero_le_one

/-! Claims about the retrieval layer. -/

/-- Claim C1: for every query and result count, hybrid_search with an empty
filter (none or the empty mapping) returns text_results and image_results
equal, element for element, to those of unfiltered search on the same
stores, query and count. -/
theorem hybrid_search_empty_filter_eq_search
    (trl irl : List StoreRecord) (q : String) (n : Nat) (si st : Bool)
    (filters : Option (List (String × JVal)))
    (hf : filters = none ∨ filters = some []) :
    ∃ r, search (.ok trl) (.ok irl) q n si st = .ok r ∧
      (hybrid_search (.ok trl) (.ok irl) q n filters si st).text_results = r.text_results ∧
      (hybrid_search (.ok trl) (.ok irl) q n filters si st).image_results = r.image_results := by
  have hw : buildWhereClause filters = none := by
    rcases hf with h | h <;> subst h <;> rfl
  have hmin : min n (n * 2) = n := by omega
  refine ⟨{ query := q,
            text_results := (if st then trl.take n else []).map toTextEntry,
            image_results := (if si then irl.take n else []).map toImageEntry }, ?_, ?_, ?_⟩
  · cases st <;> cases si <;> simp [search, chromaQuery]
  · cases st <;> simp [hybrid_search, chromaQuery, hw, List.take_take, hmin]
  · cases si <;> simp [hybrid_search, chromaQuery, hw, List.take_take, hmin]

theorem hybrid_search_empty_filter_eq_search_witness :
    ∃ r, search (.ok [⟨"d", [("color", JVal.str "red")], 0⟩]) (.ok []) "q" 3 true true = .ok r ∧
      (hybrid_search (.ok [⟨"d", [("color", JVal.str "red")], 0⟩]) (.ok [])
        "q" 3 none true true).text_results = r.text_results ∧
      (hybrid_search (.ok [⟨"d", [("color", JVal.str "red")], 0⟩]) (.ok [])
        "q" 3 none true true).image_results = r.image_results :=
  hybrid_search_empty_filter_eq_search [⟨"d", [("color", JVal.str "red")], 0⟩] []
    "q" 3 true true none (Or.inl rfl)

/-- Claim C4: with a non-empty filter, hybrid_search requests n * 2
candidates per collection with the filter applied by the store itself and
keeps the first min(n, number returned) hits in ranked order, so each
modality list has at most n entries, and exactly the filtered count when
that count is below n. -/
theorem hybrid_search_overfetch_truncate
    (trl irl : List StoreRecord) (q : String) (n : Nat)
    (fs : List (String × JVal)) (hfs : fs ≠ []) :
    ∃ w, buildWhereClause (some fs) = some w ∧
      (hybrid_search (.ok trl) (.ok irl) q n (some fs) true true).text_results
        = (((trl.filter (fun r => matchWhere w r.metadata)).take (n * 2)).take n).map toTextEntry ∧
      (hybrid_search (.ok trl) (.ok irl) q n (some fs) true true).image_results
        = (((irl.filter (fun r => matchWhere w r.metadata)).take (n * 2)).take n).map toImageEntry ∧
      (hybrid_search (.ok trl) (.ok irl) q n (some fs) true true).text_results.length
        = min n ((trl.filter (fun r => matchWhere w r.metadata)).take (n * 2)).length ∧
      (hybrid_search (.ok trl) (.ok irl) q n (some fs) true true).text_results.length ≤ n ∧
      (hybrid_search (.ok trl) (.ok irl) q n (some fs) true true).image_results.length ≤ n ∧
      ((trl.filter (fun r => matchWhere w r.metadata)).length < n →
        (hybrid_search (.ok trl) (.ok irl) q n (some fs) true true).text_results.length
          = (trl.filter (fun r => matchWhere w r.metadata)).length) ∧
      ((irl.filter (fun r => matchWhere w r.metadata)).length < n →
        (hybrid_search (.ok trl) (.ok irl) q n (some fs) true true).image_results.length
          = (irl.filter (fun r => matchWhere w r.metadata)).length) := by
  obtain ⟨w, hw⟩ : ∃ w, buildWhereClause (some fs) = some w := by
    cases fs with
    | nil => exact absurd rfl hfs
    | cons a t =>
        cases t with
        | nil => exact ⟨fieldCondition a, rfl⟩
        | cons b t2 =>
            exact ⟨.obj [("$and", .arr ((a :: b :: t2).map fieldCondition))], rfl⟩
  refine ⟨w, hw, ?_, ?_, ?_, ?_, ?_, ?_, ?_⟩ <;>
    simp [hybrid_search, chromaQuery, hw, List.take_take, List.length_take] <;>
    omega

theorem hybrid_search_overfetch_truncate_witness :
    ∃ w, buildWhereClause (some [("color", JVal.str "red")]) = some w ∧
      (hybrid_search (.ok ([⟨"d", [("color", JVal.str "red")], 0⟩] : List StoreRecord))
        (.ok ([] : List StoreRecord))
        "q" 2 (some [("color", JVal.str "red")]) true true).text_results
        = (((([⟨"d", [("color", JVal.str "red")], 0⟩] : List StoreRecord).filter
            (fun r => matchWhere w r.metadata)).take (2 * 2)).take 2).map toTextEntry ∧
      (hybrid_search (.ok ([⟨"d", [("color", JVal.str "red")], 0⟩] : List StoreRecord))
        (.ok ([] : List StoreRecord))
        "q" 2 (some [("color", JVal.str "red")]) true true).image_results
        = (((([] : List StoreRecord).filter
            (fun r => matchWhere w r.metadata)).take (2 * 2)).take 2).map toImageEntry ∧
      (hybrid_search (.ok ([⟨"d", [("color", JVal.str "red")], 0⟩] : List StoreRecord))
        (.ok ([] : List StoreRecord))
        "q" 2 (some [("color", JVal.str "red")]) true true).text_results.length
        = min 2 ((([⟨"d", [("color", JVal.str "red")], 0⟩] : List StoreRecord).filter
            (fun r => matchWhere w r.metadata)).take (2 * 2)).length ∧
      (hybrid_search (.ok ([⟨"d", [("color", JVal.str "red")], 0⟩] : List StoreRecord))
        (.ok ([] : List StoreRecord))
        "q" 2 (some [("color", JVal.str "red")]) true true).text_results.length ≤ 2 ∧
      (hybrid_search (.ok ([⟨"d", [("color", JVal.str "red")], 0⟩] : List StoreRecord))
        (.ok ([] : List StoreRecord))
        "q" 2 (some [("color", JVal.str "red")]) true true).image_results.length ≤ 2 ∧
      ((([⟨"d", [("color", JVal.str "red")], 0⟩] : List StoreRecord).filter
          (fun r => matchWhere w r.metadata)).length < 2 →
        (hybrid_search (.ok ([⟨"d", [("color", JVal.str "red")], 0⟩] : List StoreRecord))
          (.ok ([] : List StoreRecord))
          "q" 2 (some [("color", JVal.str "red")]) true true).text_results.length
          = (([⟨"d", [("color", JVal.str "red")], 0⟩] : List StoreRecord).filter
              (fun r => matchWhere w r.metadata)).length) ∧
      ((([] : List StoreRecord).filter (fun r => matchWhere w r.metadata)).length < 2 →
        (hybrid_search (.ok ([⟨"d", [("color", JVal.str "red")], 0⟩] : List StoreRecord))
          (.ok ([] : List StoreRecord))
          "q" 2 (some [("color", JVal.str "red")]) true true).image_results.length
          = (([] : List StoreRecord).filter
              (fun r => matchWhere w r.metadata)).length) :=
  hybrid_search_overfetch_truncate [⟨"d", [("color", JVal.str "red")], 0⟩] []
    "q" 2 [("color", JVal.str "red")] (by simp)

/-- Claim C5: the where clause hybrid_search sends to the store turns a
field with a non-mapping value into an exact-match $eq predicate, passes a
field with a mapping value (a range predicate) through unchanged, is the
single condition when the filter has exactly one field, and is the $and of
the conditions when it has two or more fields. -/
theorem hybrid_search_where_clause_spec
    (k : String) (v : JVal) (o : List (String × JVal)) (fs : List (String × JVal)) :
    fieldCondition (k, JVal.obj o) = JVal.obj [(k, JVal.obj o)] ∧
    ((∀ o2, v ≠ JVal.obj o2) →
      fieldCondition (k, v) = JVal.obj [(k, JVal.obj [("$eq", v)])]) ∧
    (∀ kv, fs = [kv] → buildWhereClause (some fs) = some (fieldCondition kv)) ∧
    (2 ≤ fs.length →
      buildWhereClause (some fs)
        = some (JVal.obj [("$and", JVal.arr (fs.map fieldCondition))])) := by
  refine ⟨rfl, ?_, ?_, ?_⟩
  · intro hno
    cases v with
    | str s => rfl
    | int m => rfl
    | obj o2 => exact absurd rfl (hno o2)
    | arr a => rfl
  · intro kv hkv
    subst hkv
    rfl
  · intro hlen
    cases fs with
    | nil => simp at hlen
    | cons a t =>
        cases t with
        | nil => simp at hlen
        | cons b t2 => rfl

theorem hybrid_search_where_clause_spec_witness :
    fieldCondition ("price", JVal.obj [("$lt", JVal.int 300)])
      = JVal.obj [("price", JVal.obj [("$lt", JVal.int 300)])] ∧
    fieldCondition ("color", JVal.str "red")
      = JVal.obj [("color", JVal.obj [("$eq", JVal.str "red")])] ∧
    buildWhereClause (some [("color", JVal.str "red")])
      = some (fieldCondition ("color", JVal.str "red")) ∧
    buildWhereClause
        (some [("category", JVal.str "electronics"), ("price", JVal.obj [("$lt", JVal.int 300)])])
      = some (JVal.obj [("$and", JVal.arr
          ([("category", JVal.str "electronics"),
            ("price", JVal.obj [("$lt", JVal.int 300)])].map fieldCondition))]) :=
  ⟨(hybrid_search_where_clause_spec "price" (JVal.str "x") [("$lt", JVal.int 300)] []).1,
   (hybrid_search_where_clause_spec "color" (JVal.str "red") [] []).2.1
     (fun o2 h => JVal.noConfusion h),
   (hybrid_search_where_clause_spec "color" (JVal.str "x") [] [("color", JVal.str "red")]).2.2.1
     ("color", JVal.str "red") rfl,
   (hybrid_search_where_clause_spec "x" (JVal.str "x") []
      [("category", JVal.str "electronics"), ("price", JVal.obj [("$lt", JVal.int 300)])]).2.2.2
     (by simp)⟩

/-- Claim C6: a store failure in one modality of hybrid_search is caught and
logged, leaves that modality's result list empty, and the call still returns
with the other modality's results unchanged. -/
theorem hybrid_search_error_isolation
    (e : String) (trl irl : List StoreRecord) (q : String) (n : Nat)
    (filters : Option (List (String × JVal))) :
    (hybrid_search (.error e) (.ok irl) q n filters true true).text_results = [] ∧
    (hybrid_search (.error e) (.ok irl) q n filters true true).image_results
      = (hybrid_search (.ok trl) (.ok irl) q n filters true true).image_results ∧
    hybrid_search_logs (.error e) (.ok irl) q n filters true true
      = [s!"Text search error: {e}"] ∧
    (hybrid_search (.ok trl) (.error e) q n filters true true).image_results = [] ∧
    (hybrid_search (.ok trl) (.error e) q n filters true true).text_results
      = (hybrid_search (.ok trl) (.ok irl) q n filters true true).text_results ∧
    hybrid_search_logs (.ok trl) (.error e) q n filters true true
      = [s!"Image search error: {e}"] := by
  refine ⟨?_, ?_, ?_, ?_, ?_, ?_⟩ <;> simp [hybrid_search, hybrid_search_logs, chromaQuery]

/-- Claim C7: when the filter matches none of the indexed records of a
collection, hybrid_search returns an empty result list for that modality
(and, being total, reports no error to the caller). -/
theorem hybrid_search_zero_match_empty
    (trl irl : List StoreRecord) (q : String) (n : Nat)
    (filters : Option (List (String × JVal))) (w : JVal)
    (hw : buildWhereClause filters = some w) :
    ((∀ r ∈ trl, matchWhere w r.metadata = false) →
      (hybrid_search (.ok trl) (.ok irl) q n filters true true).text_results = []) ∧
    ((∀ r ∈ irl, matchWhere w r.metadata = false) →
      (hybrid_search (.ok trl) (.ok irl) q n filters true true).image_results = []) := by
  constructor <;> intro hz
  · have hfil : trl.filter (fun r => matchWhere w r.metadata) = [] :=
      List.filter_eq_nil_iff.mpr (fun a ha => by rw [hz a ha]; exact Bool.false_ne_true)
    simp [hybrid_search, chromaQuery, hw, hfil]
  · have hfil : irl.filter (fun r => matchWhere w r.metadata) = [] :=
      List.filter_eq_nil_iff.mpr (fun a ha => by rw [hz a ha]; exact Bool.false_ne_true)
    simp [hybrid_search, chromaQuery, hw, hfil]

theorem hybrid_search_zero_match_empty_witness :
    (hybrid_search (.ok [⟨"d", [("color", JVal.str "blue")], 0⟩]) (.ok [])
      "q" 3 (some [("color", JVal.str "red")]) true true).text_results = [] ∧
    (hybrid_search (.ok [⟨"d", [("color", JVal.str "blue")], 0⟩]) (.ok [])
      "q" 3 (some [("color", JVal.str "red")]) true true).image_results = [] :=
  ⟨(hybrid_search_zero_match_empty [⟨"d", [("color", JVal.str "blue")], 0⟩] []
      "q" 3 (some [("color", JVal.str "red")])
      (JVal.obj [("color", JVal.obj [("$eq", JVal.str "red")])]) rfl).1
    (by intro r hr; simp at hr; subst hr; rfl),
   (hybrid_search_zero_match_empty [⟨"d", [("color", JVal.str "blue")], 0⟩] []
      "q" 3 (some [("color", JVal.str "red")])
      (JVal.obj [("color", JVal.obj [("$eq", JVal.str "red")])]) rfl).2
    (by intro r hr; simp at hr)⟩

/-- Claim C2: smart_search exists and, for every query, derives a metadata
filter from the query text via extract_filters (color words, category
words, and price thresholds such as "under $X") and delegates to
hybrid_search, falling back to unfiltered search when nothing is
recognized; on "What electronics under $300?" the derived filter is
category electronics and price less than 300, exactly as a manual
hybrid_search filter. -/
theorem smart_search_spec (textRanked imageRanked : Except String (List StoreRecord))
    (q : String) (n : Nat) :
    (∀ fs, extract_filters q = some fs →
      smart_search textRanked imageRanked q n
        = .ok (hybrid_search textRanked imageRanked q n (some fs) true true)) ∧
    (extract_filters q = none →
      smart_search textRanked imageRanked q n
        = (match search textRanked imageRanked q n true true with
           | .error e => .error e
           | .ok r => .ok { query := r.query, filters := none,
                            text_results := r.text_results,
                            image_results := r.image_results })) ∧
    extract_filters "What electronics under $300?"
      = some [("category", JVal.str "electronics"),
              ("price", JVal.obj [("$lt", JVal.int 300)])] ∧
    smart_search textRanked imageRanked "What electronics under $300?" n
      = .ok (hybrid_search textRanked imageRanked "What electronics under $300?" n
          (some [("category", JVal.str "electronics"),
                 ("price", JVal.obj [("$lt", JVal.int 300)])]) true true) := by
  refine ⟨?_, ?_, rfl, rfl⟩
  · intro fs hfs
    unfold smart_search
    rw [hfs]
  · intro h
    unfold smart_search
    rw [h]

theorem smart_search_spec_witness :
    smart_search (.ok ([] : List StoreRecord)) (.ok ([] : List StoreRecord))
      "Show me red footwear" 3
      = .ok (hybrid_search (.ok ([] : List StoreRecord)) (.ok ([] : List StoreRecord))
          "Show me red footwear" 3
          (some [("color", JVal.str "red"), ("category", JVal.str "footwear")]) true true) ∧
    smart_search (.ok ([] : List StoreRecord)) (.ok ([] : List StoreRecord))
      "What can I use for listening to music?" 3
      = (match search (.ok ([] : List StoreRecord)) (.ok ([] : List StoreRecord))
           "What can I use for listening to music?" 3 true true with
         | .error e => .error e
         | .ok r => .ok { query := r.query, filters := none,
                          text_results := r.text_results,
                          image_results := r.image_results }) :=
  ⟨(smart_search_spec (.ok []) (.ok []) "Show me red footwear" 3).1
      [("color", JVal.str "red"), ("category", JVal.str "footwear")] rfl,
   (smart_search_spec (.ok []) (.ok []) "What can I use for listening to music?" 3).2.1 rfl⟩

/-- Claim C9: index_data adds exactly one text record and one image record
per catalog item; the i-th text record carries the concatenated document
name - description - color - category with filename, name, color, category
and price metadata; the i-th image record carries the vision caption as
document with filename and caption metadata; and, the catalog filenames
being distinct, the filename in each record's metadata identifies exactly
one originating catalog item. -/
theorem index_data_spec (embed : String → List Rat) (caption : String → String)
    (ds : List (String × Item)) (hnd : (ds.map Prod.fst).Nodup) :
    (index_data embed caption ds).1.length = ds.length ∧
    (index_data embed caption ds).2.length = ds.length ∧
    (∀ i (h : i < ds.length) (h1 : i < (index_data embed caption ds).1.length),
      (index_data embed caption ds).1[i] =
        { id := s!"text_{i}"
          document := text_content ds[i].2
          embedding := embed (text_content ds[i].2)
          metadata := [("filename", .str ds[i].1), ("name", .str ds[i].2.name),
                       ("color", .str ds[i].2.color), ("category", .str ds[i].2.category),
                       ("price", .int ds[i].2.price)] }) ∧
    (∀ i (h : i < ds.length) (h2 : i < (index_data embed caption ds).2.length),
      (index_data embed caption ds).2[i] =
        { id := s!"image_{i}"
          document := caption ("images/" ++ ds[i].1)
          embedding := embed (caption ("images/" ++ ds[i].1))
          metadata := [("filename", .str ds[i].1),
                       ("image_path", .str ("images/" ++ ds[i].1)),
                       ("visual_description", .str (caption ("images/" ++ ds[i].1)))] }) ∧
    (∀ rec ∈ (index_data embed caption ds).1,
      ∃! p, p ∈ ds ∧ List.lookup "filename" rec.metadata = some (.str p.1)) ∧
    (∀ rec ∈ (index_data embed caption ds).2,
      ∃! p, p ∈ ds ∧ List.lookup "filename" rec.metadata = some (.str p.1)) := by
  refine ⟨by simp [index_data], by simp [index_data], ?_, ?_, ?_, ?_⟩
  · intro i h h1
    simp [index_data, List.getElem_enum]
  · intro i h h2
    simp [index_data, List.getElem_enum]
  · intro rec hrec
    simp only [index_data, List.mem_map] at hrec
    obtain ⟨row, hrow, rfl⟩ := hrec
    have hmem : row.2 ∈ ds := by
      have hget := List.mem_enum_iff_getElem?.mp hrow
      exact List.getElem?_mem hget
    refine ⟨row.2, ⟨hmem, by simp [List.lookup]⟩, ?_⟩
    rintro p ⟨hp, hlookup⟩
    simp [List.lookup] at hlookup
    exact List.inj_on_of_nodup_map hnd hp hmem hlookup.symm
  · intro rec hrec
    simp only [index_data, List.mem_map] at hrec
    obtain ⟨row, hrow, rfl⟩ := hrec
    have hmem : row.2 ∈ ds := by
      have hget := List.mem_enum_iff_getElem?.mp hrow
      exact List.getElem?_mem hget
    refine ⟨row.2, ⟨hmem, by simp [List.lookup]⟩, ?_⟩
    rintro p ⟨hp, hlookup⟩
    simp [List.lookup] at hlookup
    exact List.inj_on_of_nodup_map hnd hp hmem hlookup.symm

theorem index_data_spec_witness :
    ((([("red_running_shoes.jpg",
        ({ name := "Running Shoes", description := "Red athletic running shoes",
           color := "red", category := "footwear", price := 120 } : Item))])
        |>.map Prod.fst).Nodup) ∧
    (index_data (fun _ => ([] : List Rat)) (fun _ => "a red shoe")
      [("red_running_shoes.jpg",
        { name := "Running Shoes", description := "Red athletic running shoes",
          color := "red", category := "footwear", price := 120 })]).1.length = 1 ∧
    (index_data (fun _ => ([] : List Rat)) (fun _ => "a red shoe")
      [("red_running_shoes.jpg",
        { name := "Running Shoes", description := "Red athletic running shoes",
          color := "red", category := "footwear", price := 120 })]).2.length = 1 ∧
    ∀ rec ∈ (index_data (fun _ => ([] : List Rat)) (fun _ => "a red shoe")
      [("red_running_shoes.jpg",
        { name := "Running Shoes", description := "Red athletic running shoes",
          color := "red", category := "footwear", price := 120 })]).1,
      ∃! p, p ∈ [("red_running_shoes.jpg",
        ({ name := "Running Shoes", description := "Red athletic running shoes",
           color := "red", category := "footwear", price := 120 } : Item))] ∧
        List.lookup "filename" rec.metadata = some (.str p.1) :=
  ⟨by simp,
   (index_data_spec (fun _ => ([] : List Rat)) (fun _ => "a red shoe") _ (by simp)).1.trans rfl,
   (index_data_spec (fun _ => ([] : List Rat)) (fun _ => "a red shoe") _ (by simp)).2.1.trans rfl,
   (index_data_spec (fun _ => ([] : List Rat)) (fun _ => "a red shoe") _ (by simp)).2.2.2.2.1⟩

end MMRag
